import Mathlib

/-!
Shallow embedding of `src/include/spdlog/sinks/wincolor_sink-inl.h`
(the `wincolor_sink` colorized console sink).

The sink is modelled as a pure state machine.  The Win32 console device is a
record holding its current text-attribute word and a flag telling whether
`GetConsoleScreenBufferInfo` succeeds on the handle.  Every observable effect
of a call (`WriteConsoleA`, `WriteFile`, `SetConsoleTextAttribute`) is
recorded in an event trace, in program order, so that theorems can speak
about exactly which bytes were written and which attribute changes were
issued.  Machine words (`WORD`, i.e. `std::uint16_t`) are `Nat` with an
explicit `% 65536` at every cast point of the source.
-/

namespace Spdlog

/-- Severity levels (`level::level_enum`): trace, debug, info, warn, err,
critical, off. -/
inductive Level where
  | trace
  | debug
  | info
  | warn
  | err
  | critical
  | off
deriving DecidableEq

/-- The `color_mode` enum: automatic, always, never. -/
inductive ColorMode where
  | automatic
  | always
  | never
deriving DecidableEq

/-- The `void *out_handle_` device handle: `nullptr`, the
`INVALID_HANDLE_VALUE` sentinel, or some valid handle. -/
inductive Handle where
  | null
  | invalid_handle
  | valid (id : Nat)
deriving DecidableEq

/-- The console device as seen through the handle: its current text
attributes (a 16-bit `WORD` register) and whether
`GetConsoleScreenBufferInfo` succeeds on it. -/
structure Device where
  attribs : Nat
  queryOk : Bool
deriving DecidableEq

/-- One observable effect on the device: a `WriteConsoleA` call (from
`print_range_`), a `WriteFile` call (from `write_to_file_`), or a
`SetConsoleTextAttribute` call. -/
inductive Event where
  | writeConsole (bytes : List Nat)
  | writeFile (bytes : List Nat)
  | setAttr (a : Nat)
deriving DecidableEq

/-- The mutable color-range bookkeeping fields of `details::log_msg`, which
the formatter populates as a side effect of `format`. -/
structure RangeInfo where
  num_start_ranges : Nat
  color_ranges_start : List Nat
  num_end_ranges : Nat
  color_ranges_end : List Nat
deriving DecidableEq

/-- A `details::log_msg`: severity level, the (opaque) content the formatter
reads, and the mutable color-range bookkeeping. -/
structure LogMsg where
  level : Level
  payload : List Nat
  num_start_ranges : Nat
  color_ranges_start : List Nat
  num_end_ranges : Nat
  color_ranges_end : List Nat
deriving DecidableEq

/-- The `wincolor_sink` state: handle, `in_console_` flag, resolved
`should_do_colors_` flag, per-level color table and the owned formatter.
The formatter maps a message to the formatted byte buffer together with the
range bookkeeping it writes back into the message's mutable fields. -/
structure Sink where
  out_handle_ : Handle
  in_console_ : Bool
  should_do_colors_ : Bool
  colors_ : Level → Nat
  formatter_ : LogMsg → List Nat × RangeInfo

/-- `FOREGROUND_BLUE` from `wincon.h`. -/
def FOREGROUND_BLUE : Nat := 1

/-- `FOREGROUND_GREEN` from `wincon.h`. -/
def FOREGROUND_GREEN : Nat := 2

/-- `FOREGROUND_RED` from `wincon.h`. -/
def FOREGROUND_RED : Nat := 4

/-- Modelled from the spec: the fixed maximum range count `MAX_RANGES`
(declared in a header not present in the sources; the spec says the range
arrays are "bounded by a fixed maximum count").  The concrete value does not
matter to any claim; 10 is used as the capacity of the zeroed arrays. -/
def MAX_RANGES : Nat := 10

/-- Modulus of a 16-bit `WORD` / `std::uint16_t`. -/
def WORD_MOD : Nat := 65536

/-- `::SetConsoleTextAttribute(handle, a)`: store the `WORD` argument in the
device's attribute register and record the call. -/
def setConsoleTextAttribute (dev : Device) (a : Nat) : Device × List Event :=
  ({ dev with attribs := a % WORD_MOD }, [Event.setAttr (a % WORD_MOD)])

/-- `wincolor_sink::set_foreground_color_(attribs)`: query the current
screen-buffer attributes; on failure return white without touching the
device; on success set `attribs | (orig & 0xfff0)` and return the original
attributes for the later reset. -/
def set_foreground_color_ (dev : Device) (attribs : Nat) : Nat × Device × List Event :=
  if dev.queryOk = false then
    (FOREGROUND_RED ||| FOREGROUND_GREEN ||| FOREGROUND_BLUE, dev, [])
  else
    let wAttributes := dev.attribs % WORD_MOD
    let new_attribs := (attribs % WORD_MOD) ||| (wAttributes &&& 0xfff0)
    let r := setConsoleTextAttribute dev new_attribs
    (wAttributes, r.1, r.2)

/-- `wincolor_sink::print_range_(formatted, start, end)`: call
`WriteConsoleA` on `formatted.data() + start` with size `end - start`, but
only when `end > start`. -/
def print_range_ (formatted : List Nat) (start stop : Nat) : List Event :=
  if stop > start then
    [Event.writeConsole ((formatted.drop start).take (stop - start))]
  else
    []

/-- `wincolor_sink::write_to_file_(formatted)`: one `WriteFile` call with the
whole buffer. -/
def write_to_file_ (formatted : List Nat) : List Event :=
  [Event.writeFile formatted]

/-- The reset of the message's range bookkeeping performed by `log` before
formatting: both counts set to 0 and both arrays `memset` to zero. -/
def reset_ranges (msg : LogMsg) : LogMsg :=
  { msg with
    num_start_ranges := 0
    color_ranges_start := List.replicate MAX_RANGES 0
    num_end_ranges := 0
    color_ranges_end := List.replicate MAX_RANGES 0 }

/-- Writing the formatter's range side effect back into the message's
mutable fields. -/
def apply_ranges (msg : LogMsg) (r : RangeInfo) : LogMsg :=
  { msg with
    num_start_ranges := r.num_start_ranges
    color_ranges_start := r.color_ranges_start
    num_end_ranges := r.num_end_ranges
    color_ranges_end := r.color_ranges_end }

/-- The `for(size_t i=0; i<msg.num_start_ranges; i++)` loop of
`wincolor_sink::log`: for each range apply the level color, print the range,
reset to the original attributes, then print the uncolored gap to the next
range (or to the end of the buffer for the last range). -/
def color_range_loop (dev : Device) (color : Nat) (formatted : List Nat)
    (num : Nat) (starts stops : List Nat) (i : Nat) : Device × List Event :=
  if _h : i < num then
    let fg := set_foreground_color_ dev color
    let orig_attribs := fg.1
    let dev1 := fg.2.1
    let ev1 := fg.2.2
    let ev2 := print_range_ formatted (starts.getD i 0) (stops.getD i 0)
    let rs := setConsoleTextAttribute dev1 orig_attribs
    let dev2 := rs.1
    let ev3 := rs.2
    let ev4 :=
      if i + 1 < num then
        print_range_ formatted (stops.getD i 0) (starts.getD (i + 1) 0)
      else
        print_range_ formatted (stops.getD i 0) formatted.length
    let rest := color_range_loop dev2 color formatted num starts stops (i + 1)
    (rest.1, ev1 ++ ev2 ++ ev3 ++ ev4 ++ rest.2)
  else
    (dev, [])
termination_by num - i
decreasing_by omega

/-- `wincolor_sink::log(msg)`: guard on a null/invalid handle, reset the
range bookkeeping, format, then either write plainly (non-console device,
colors disabled, or inconsistent range counts) or walk the buffer
alternating uncolored segments and colored ranges.  Returns the message
(with the formatter's range side effect), the final device state and the
event trace. -/
def log (sink : Sink) (msg : LogMsg) (dev : Device) : LogMsg × Device × List Event :=
  if sink.out_handle_ = Handle.null ∨ sink.out_handle_ = Handle.invalid_handle then
    (msg, dev, [])
  else
    let msg0 := reset_ranges msg
    let fr := sink.formatter_ msg0
    let formatted := fr.1
    let msg1 := apply_ranges msg0 fr.2
    if sink.in_console_ = false then
      (msg1, dev, write_to_file_ formatted)
    else if sink.should_do_colors_ = true ∧ msg1.num_start_ranges = msg1.num_end_ranges then
      if msg1.num_start_ranges > 0 then
        let ev0 := print_range_ formatted 0 (msg1.color_ranges_start.getD 0 0)
        let lp := color_range_loop dev (sink.colors_ msg1.level) formatted
          msg1.num_start_ranges msg1.color_ranges_start msg1.color_ranges_end 0
        (msg1, lp.1, ev0 ++ lp.2)
      else
        let fg := set_foreground_color_ dev (sink.colors_ msg1.level)
        let ev2 := print_range_ formatted 0 formatted.length
        let rs := setConsoleTextAttribute fg.2.1 fg.1
        (msg1, rs.1, fg.2.2 ++ ev2 ++ rs.2)
    else
      (msg1, dev, write_to_file_ formatted)

/-- `wincolor_sink::set_color(level, color)`: store the `std::uint16_t`
color for the level. -/
def set_color (sink : Sink) (lvl : Level) (color : Nat) : Sink :=
  { sink with colors_ := fun l => if l = lvl then color % WORD_MOD else sink.colors_ l }

/-- `wincolor_sink::set_formatter(f)`: replace the owned formatter. -/
def set_formatter (sink : Sink) (f : LogMsg → List Nat × RangeInfo) : Sink :=
  { sink with formatter_ := f }

/-- `wincolor_sink::set_color_mode_impl(mode)`: `automatic` probes
`GetConsoleMode` on the handle (the probe result is passed in as
`console_mode_probe`), `always`/`never` force the flag; only
`should_do_colors_` is assigned. -/
def set_color_mode_impl (sink : Sink) (console_mode_probe : Bool) (mode : ColorMode) : Sink :=
  if mode = ColorMode.automatic then
    { sink with should_do_colors_ := console_mode_probe }
  else
    { sink with should_do_colors_ := decide (mode = ColorMode.always) }

/-- `wincolor_sink::set_color_mode(mode)`: take the lock and delegate to
`set_color_mode_impl`. -/
def set_color_mode (sink : Sink) (console_mode_probe : Bool) (mode : ColorMode) : Sink :=
  set_color_mode_impl sink console_mode_probe mode

/-- All payload bytes written by a trace, across both `WriteConsoleA` and
`WriteFile` calls, in order. -/
def writtenBytes : List Event → List Nat
  | [] => []
  | Event.writeConsole bs :: rest => bs ++ writtenBytes rest
  | Event.writeFile bs :: rest => bs ++ writtenBytes rest
  | Event.setAttr _ :: rest => writtenBytes rest

/-- The sequence of `SetConsoleTextAttribute` arguments in a trace, in
order. -/
def attrTrace : List Event → List Nat
  | [] => []
  | Event.setAttr a :: rest => a :: attrTrace rest
  | Event.writeConsole _ :: rest => attrTrace rest
  | Event.writeFile _ :: rest => attrTrace rest

/-- The attribute word actually set by `set_foreground_color_` when the
query succeeds: `attribs | (orig & 0xfff0)`, keeping only the foreground
bits of the requested color and the rest of the original attributes. -/
def applyVal (c d : Nat) : Nat := (c % WORD_MOD) ||| (d % WORD_MOD &&& 0xfff0)

/-- The formatted buffer `log` produces for a message (the formatter applied
to the range-reset message). -/
def fmt_buf (sink : Sink) (msg : LogMsg) : List Nat :=
  (sink.formatter_ (reset_ranges msg)).1

/-- The range bookkeeping the formatter leaves in the message. -/
def fmt_ranges (sink : Sink) (msg : LogMsg) : RangeInfo :=
  (sink.formatter_ (reset_ranges msg)).2

/-! Concrete sample inputs used by the witness theorems. -/

/-- A formatter returning the message payload with no color ranges. -/
def fmtPlain : LogMsg → List Nat × RangeInfo :=
  fun m => (m.payload, ⟨0, [], 0, []⟩)

/-- A formatter whose range counts disagree (1 start range, 0 end ranges). -/
def fmtBad : LogMsg → List Nat × RangeInfo :=
  fun m => (m.payload, ⟨1, [0, 0, 0, 0, 0, 0, 0, 0, 0, 0], 0, [0, 0, 0, 0, 0, 0, 0, 0, 0, 0]⟩)

/-- A sample message with a 3-byte payload and stale range data. -/
def msgA : LogMsg := ⟨Level.info, [72, 105, 33], 2, [1, 2], 2, [2, 3]⟩

/-- A sample device: attributes 7 (white on black), queries succeed. -/
def devA : Device := ⟨7, true⟩

/-- A sample device on which `GetConsoleScreenBufferInfo` fails. -/
def devFail : Device := ⟨7, false⟩

/-- A sink whose handle is null. -/
def sinkNull : Sink := ⟨Handle.null, true, true, fun _ => 4, fmtPlain⟩

/-- A valid-handle sink whose device is not a console, colors forced on. -/
def sinkFile : Sink := ⟨Handle.valid 1, false, true, fun _ => 4, fmtPlain⟩

/-- A valid-handle console sink with colorization disabled. -/
def sinkPlain : Sink := ⟨Handle.valid 1, true, false, fun _ => 4, fmtPlain⟩

/-- A valid-handle console sink, colors on, mismatched range counts. -/
def sinkBad : Sink := ⟨Handle.valid 1, true, true, fun _ => 4, fmtBad⟩

/-- A valid-handle console sink with colorization enabled and a formatter
producing no ranges. -/
def sinkColor : Sink := ⟨Handle.valid 1, true, true, fun _ => 4, fmtPlain⟩

/-- A formatter producing the spec's example: a 10-byte buffer with ranges
`(0,3)` and `(5,8)`. -/
def fmtTwoRanges : LogMsg → List Nat × RangeInfo :=
  fun _ => ([10, 11, 12, 13, 14, 15, 16, 17, 18, 19],
    ⟨2, [0, 5, 0, 0, 0, 0, 0, 0, 0, 0], 2, [3, 8, 0, 0, 0, 0, 0, 0, 0, 0]⟩)

/-- A valid-handle console sink, colors on, two well-ordered ranges. -/
def sinkTwo : Sink := ⟨Handle.valid 1, true, true, fun _ => 4, fmtTwoRanges⟩

/-- C7: `print_range_` issues no write call at all exactly when
`end <= start`; a `WriteConsoleA` call is issued if and only if
`end > start`, so a write with non-positive length is never attempted. -/
theorem print_range_no_write_iff (formatted : List Nat) (start stop : Nat) :
    print_range_ formatted start stop = [] ↔ stop ≤ start := by
  unfold print_range_
  split
  · simp
    omega
  · simp
    omega

/-- C4: with a null or `INVALID_HANDLE_VALUE` handle, `log` returns
immediately as a no-op: the message keeps its stale state (no reset, no
formatting), the device is untouched and the trace is empty. -/
theorem log_invalid_handle_noop (sink : Sink) (msg : LogMsg) (dev : Device)
    (h : sink.out_handle_ = Handle.null ∨ sink.out_handle_ = Handle.invalid_handle) :
    log sink msg dev = (msg, dev, []) := by
  unfold log
  rw [if_pos h]

theorem log_invalid_handle_noop_witness : log sinkNull msgA devA = (msgA, devA, []) :=
  log_invalid_handle_noop sinkNull msgA devA (Or.inl rfl)

/-- C3: with a valid handle but `in_console_` false, `log` writes the whole
formatted buffer as one plain `WriteFile` call and returns before any
colorization: the trace carries no attribute call and the device state is
unchanged, for every color mode and range annotation. -/
theorem log_non_console_plain (sink : Sink) (msg : LogMsg) (dev : Device)
    (hh : ¬(sink.out_handle_ = Handle.null ∨ sink.out_handle_ = Handle.invalid_handle))
    (hc : sink.in_console_ = false) :
    (log sink msg dev).2.2 = [Event.writeFile (sink.formatter_ (reset_ranges msg)).1] ∧
      (log sink msg dev).2.1 = dev := by
  constructor <;> simp [log, hh, hc, write_to_file_]

theorem log_non_console_plain_witness :
    (log sinkFile msgA devA).2.2 = [Event.writeFile (sinkFile.formatter_ (reset_ranges msgA)).1] ∧
      (log sinkFile msgA devA).2.1 = devA :=
  log_non_console_plain sinkFile msgA devA (by decide) rfl

/-- C2: on a valid console device, if `should_do_colors_` is false or the
formatter left unequal range counts, `log` degrades silently to a single
plain `WriteFile` of the whole buffer, with no attribute apply/restore
call and the device untouched. -/
theorem log_plain_on_disabled_or_mismatch (sink : Sink) (msg : LogMsg) (dev : Device)
    (hh : ¬(sink.out_handle_ = Handle.null ∨ sink.out_handle_ = Handle.invalid_handle))
    (hc : sink.in_console_ = true)
    (hbad : sink.should_do_colors_ = false ∨
      (sink.formatter_ (reset_ranges msg)).2.num_start_ranges ≠
        (sink.formatter_ (reset_ranges msg)).2.num_end_ranges) :
    (log sink msg dev).2.2 = [Event.writeFile (sink.formatter_ (reset_ranges msg)).1] ∧
      (log sink msg dev).2.1 = dev := by
  rcases hbad with hb | hb
  · constructor <;> simp [log, hh, hc, hb, write_to_file_]
  · constructor <;> simp [log, hh, hc, apply_ranges, hb, write_to_file_]

theorem log_plain_on_disabled_or_mismatch_witness :
    (log sinkBad msgA devA).2.2 = [Event.writeFile (sinkBad.formatter_ (reset_ranges msgA)).1] ∧
      (log sinkBad msgA devA).2.1 = devA :=
  log_plain_on_disabled_or_mismatch sinkBad msgA devA (by decide) rfl (Or.inr (by decide))

/-- C8: past the valid-handle guard, `log` zeroes the record's range
bookkeeping (both counts 0, both arrays all-zero at full capacity) before
the formatter runs, so `log` behaves identically on a message and on its
reset image: stale range data from a previous call cannot reach the
colorize decision. -/
theorem log_resets_ranges_before_format (sink : Sink) (msg : LogMsg) (dev : Device)
    (hh : ¬(sink.out_handle_ = Handle.null ∨ sink.out_handle_ = Handle.invalid_handle)) :
    (reset_ranges msg).num_start_ranges = 0 ∧
      (reset_ranges msg).color_ranges_start = List.replicate MAX_RANGES 0 ∧
      (reset_ranges msg).num_end_ranges = 0 ∧
      (reset_ranges msg).color_ranges_end = List.replicate MAX_RANGES 0 ∧
      log sink msg dev = log sink (reset_ranges msg) dev := by
  refine ⟨rfl, rfl, rfl, rfl, ?_⟩
  unfold log
  rw [if_neg hh, if_neg hh]
  rw [show reset_ranges (reset_ranges msg) = reset_ranges msg from rfl]

theorem log_resets_ranges_before_format_witness :
    (reset_ranges msgA).num_start_ranges = 0 ∧
      (reset_ranges msgA).color_ranges_start = List.replicate MAX_RANGES 0 ∧
      (reset_ranges msgA).num_end_ranges = 0 ∧
      (reset_ranges msgA).color_ranges_end = List.replicate MAX_RANGES 0 ∧
      log sinkPlain msgA devA = log sinkPlain (reset_ranges msgA) devA :=
  log_resets_ranges_before_format sinkPlain msgA devA (by decide)

/-- C10: `set_color_mode_impl` assigns only `should_do_colors_` (automatic
takes the console probe, always takes true, never takes false) and leaves
the handle, the `in_console_` flag, the color table and the formatter
unchanged; `set_color_mode` is that plus the lock; and the other setters in
this file never touch `in_console_` either. -/
theorem set_color_mode_impl_only_flag (sink : Sink) (probe : Bool) (mode : ColorMode)
    (lvl : Level) (c : Nat) (f : LogMsg → List Nat × RangeInfo) :
    (set_color_mode_impl sink probe mode).out_handle_ = sink.out_handle_ ∧
      (set_color_mode_impl sink probe mode).in_console_ = sink.in_console_ ∧
      (set_color_mode_impl sink probe mode).colors_ = sink.colors_ ∧
      (set_color_mode_impl sink probe mode).formatter_ = sink.formatter_ ∧
      (set_color_mode_impl sink probe mode).should_do_colors_ =
        (match mode with
          | ColorMode.automatic => probe
          | ColorMode.always => true
          | ColorMode.never => false) ∧
      set_color_mode sink probe mode = set_color_mode_impl sink probe mode ∧
      (set_color sink lvl c).in_console_ = sink.in_console_ ∧
      (set_formatter sink f).in_console_ = sink.in_console_ := by
  cases mode <;>
    exact ⟨rfl, rfl, rfl, rfl, rfl, rfl, rfl, rfl⟩

/-! Helper lemmas about the trace combinators and the color helpers. -/

lemma applyVal_lt (c d : Nat) : applyVal c d < WORD_MOD := by
  have h1 : c % WORD_MOD < 2 ^ 16 := Nat.mod_lt _ (by norm_num [WORD_MOD])
  have h2 : d % WORD_MOD &&& 0xfff0 < 2 ^ 16 :=
    lt_of_le_of_lt Nat.and_le_left (Nat.mod_lt _ (by norm_num [WORD_MOD]))
  have := Nat.or_lt_two_pow h1 h2
  simpa [applyVal, WORD_MOD] using this

lemma set_foreground_color_ok (da c : Nat) :
    set_foreground_color_ ⟨da, true⟩ c =
      (da % WORD_MOD, (⟨applyVal c da, true⟩ : Device), [Event.setAttr (applyVal c da)]) := by
  have h := Nat.mod_eq_of_lt (applyVal_lt c da)
  simp only [applyVal] at h
  simp [set_foreground_color_, setConsoleTextAttribute, applyVal, h]

lemma set_foreground_color_fail (da c : Nat) :
    set_foreground_color_ ⟨da, false⟩ c =
      (FOREGROUND_RED ||| FOREGROUND_GREEN ||| FOREGROUND_BLUE, (⟨da, false⟩ : Device), []) := by
  simp [set_foreground_color_]

lemma writtenBytes_append (l1 l2 : List Event) :
    writtenBytes (l1 ++ l2) = writtenBytes l1 ++ writtenBytes l2 := by
  induction l1 with
  | nil => simp [writtenBytes]
  | cons e t ih => cases e <;> simp [writtenBytes, ih]

lemma writtenBytes_print_range (f : List Nat) (a b : Nat) :
    writtenBytes (print_range_ f a b) = (f.drop a).take (b - a) := by
  unfold print_range_
  split
  · simp [writtenBytes]
  · have hz : b - a = 0 := by omega
    simp [writtenBytes, hz]

lemma attrTrace_append (l1 l2 : List Event) :
    attrTrace (l1 ++ l2) = attrTrace l1 ++ attrTrace l2 := by
  induction l1 with
  | nil => simp [attrTrace]
  | cons e t ih => cases e <;> simp [attrTrace, ih]

lemma attrTrace_print_range (f : List Nat) (a b : Nat) :
    attrTrace (print_range_ f a b) = [] := by
  unfold print_range_
  split <;> simp [attrTrace]

lemma slice_append (l : List Nat) (a b c : Nat) (hab : a ≤ b) (hbc : b ≤ c) :
    (l.drop a).take (b - a) ++ (l.drop b).take (c - b) = (l.drop a).take (c - a) := by
  have h1 : c - a = (b - a) + (c - b) := by omega
  have h2 : a + (b - a) = b := by omega
  rw [h1, List.take_add, List.drop_drop, h2]

/-- Exact trace and final device state of the range-walking loop when the
attribute query succeeds: the device is returned to its initial state and
the trace is, per remaining range, one apply, the colored range write, one
restore, and the trailing uncolored gap. -/
lemma color_range_loop_ok (da c : Nat) (f : List Nat) (num : Nat) (ss es : List Nat)
    (hw : da < WORD_MOD) :
    ∀ k i, num - i = k →
      color_range_loop ⟨da, true⟩ c f num ss es i =
        ((⟨da, true⟩ : Device),
         (List.range' i k).flatMap (fun j =>
           Event.setAttr (applyVal c da) ::
             (print_range_ f (ss.getD j 0) (es.getD j 0) ++
              Event.setAttr da ::
                (if j + 1 < num then print_range_ f (es.getD j 0) (ss.getD (j + 1) 0)
                 else print_range_ f (es.getD j 0) f.length)))) := by
  intro k
  induction k with
  | zero =>
    intro i hi
    have hnot : ¬ i < num := by omega
    rw [color_range_loop.eq_def, dif_neg hnot]
    simp
  | succ k ih =>
    intro i hi
    have hlt : i < num := by omega
    have hmod : da % WORD_MOD = da := Nat.mod_eq_of_lt hw
    rw [color_range_loop.eq_def, dif_pos hlt, set_foreground_color_ok da c]
    rw [List.range'_succ, List.flatMap_cons]
    simp only [setConsoleTextAttribute, hmod]
    rw [ih (i + 1) (by omega)]
    simp [List.append_assoc]

lemma color_range_loop_dev (da c : Nat) (f : List Nat) (num : Nat) (ss es : List Nat)
    (i : Nat) (hw : da < WORD_MOD) :
    (color_range_loop ⟨da, true⟩ c f num ss es i).1 = ⟨da, true⟩ := by
  rw [color_range_loop_ok da c f num ss es hw (num - i) i rfl]

/-- Under well-ordered ranges, every range end is bounded by the buffer
length (chaining backwards from the last range's bound). -/
lemma es_bound (L : Nat) (ss es : List Nat) (n : Nat)
    (hord1 : ∀ i, i < n → ss.getD i 0 ≤ es.getD i 0)
    (hord2 : ∀ i, i < n → i + 1 < n → es.getD i 0 ≤ ss.getD (i + 1) 0)
    (hlast : es.getD (n - 1) 0 ≤ L) :
    ∀ k i, n - 1 - i = k → i < n → es.getD i 0 ≤ L := by
  intro k
  induction k with
  | zero =>
    intro i hk hi
    have hieq : i = n - 1 := by omega
    rw [hieq]
    exact hlast
  | succ k ih =>
    intro i hk hi
    have h1 : i + 1 < n := by omega
    calc es.getD i 0 ≤ ss.getD (i + 1) 0 := hord2 i hi h1
      _ ≤ es.getD (i + 1) 0 := hord1 (i + 1) h1
      _ ≤ L := ih (i + 1) (by omega) h1

/-- The bytes written by the loop trace from range `i` on are exactly the
buffer bytes from `start_i` to the end of the buffer. -/
lemma walk_bytes (f : List Nat) (ss es : List Nat) (n : Nat) (A D : Nat)
    (hord1 : ∀ i, i < n → ss.getD i 0 ≤ es.getD i 0)
    (hord2 : ∀ i, i < n → i + 1 < n → es.getD i 0 ≤ ss.getD (i + 1) 0)
    (hlast : es.getD (n - 1) 0 ≤ f.length) :
    ∀ k i, n - i = k → i < n →
      writtenBytes ((List.range' i k).flatMap (fun j =>
        Event.setAttr A ::
          (print_range_ f (ss.getD j 0) (es.getD j 0) ++
           Event.setAttr D ::
             (if j + 1 < n then print_range_ f (es.getD j 0) (ss.getD (j + 1) 0)
              else print_range_ f (es.getD j 0) f.length)))) =
        (f.drop (ss.getD i 0)).take (f.length - ss.getD i 0) := by
  intro k
  induction k with
  | zero =>
    intro i hk hi
    omega
  | succ k ih =>
    intro i hk hi
    have hsb : es.getD i 0 ≤ f.length :=
      es_bound f.length ss es n hord1 hord2 hlast (n - 1 - i) i rfl hi
    rw [List.range'_succ, List.flatMap_cons, writtenBytes_append]
    by_cases h1 : i + 1 < n
    · rw [if_pos h1, ih (i + 1) (by omega) h1]
      have e1 : es.getD i 0 ≤ ss.getD (i + 1) 0 := hord2 i hi h1
      have s1 : ss.getD (i + 1) 0 ≤ f.length :=
        le_trans (hord1 (i + 1) h1)
          (es_bound f.length ss es n hord1 hord2 hlast (n - 1 - (i + 1)) (i + 1) rfl h1)
      have c1 := slice_append f (es.getD i 0) (ss.getD (i + 1) 0) f.length e1 s1
      have c2 := slice_append f (ss.getD i 0) (es.getD i 0) f.length (hord1 i hi) hsb
      simp only [writtenBytes, writtenBytes_append, writtenBytes_print_range,
        List.append_assoc]
      rw [c1, c2]
    · have hk0 : k = 0 := by omega
      subst hk0
      rw [if_neg h1]
      have c2 := slice_append f (ss.getD i 0) (es.getD i 0) f.length (hord1 i hi) hsb
      simp only [writtenBytes, writtenBytes_append, writtenBytes_print_range,
        List.range', List.flatMap_nil, List.append_nil, List.append_assoc]
      rw [c2]

lemma writtenBytes_set_foreground (dev : Device) (c : Nat) :
    writtenBytes (set_foreground_color_ dev c).2.2 = [] := by
  obtain ⟨a, q⟩ := dev
  cases q <;> simp [set_foreground_color_, setConsoleTextAttribute, writtenBytes]

lemma writtenBytes_setConsoleTextAttribute (dev : Device) (a : Nat) :
    writtenBytes (setConsoleTextAttribute dev a).2 = [] := rfl

/-- The payload bytes the range-walking loop writes do not depend on the
device state at all: the `WriteConsoleA` calls are driven purely by the
buffer and the ranges, whatever the apply/restore attribute calls do. -/
lemma color_range_loop_bytes_indep (c : Nat) (f : List Nat) (num : Nat)
    (ss es : List Nat) :
    ∀ k i (dev dev' : Device), num - i = k →
      writtenBytes (color_range_loop dev c f num ss es i).2 =
        writtenBytes (color_range_loop dev' c f num ss es i).2 := by
  intro k
  induction k with
  | zero =>
    intro i dev dev' hk
    have hnot : ¬ i < num := by omega
    rw [color_range_loop.eq_def, dif_neg hnot]
    rw [color_range_loop.eq_def, dif_neg hnot]
  | succ k ih =>
    intro i dev dev' hk
    have hlt : i < num := by omega
    rw [color_range_loop.eq_def, dif_pos hlt]
    conv_rhs => rw [color_range_loop.eq_def, dif_pos hlt]
    simp only [writtenBytes_append, writtenBytes_set_foreground,
      writtenBytes_setConsoleTextAttribute, List.nil_append]
    rw [ih (i + 1)
      ((setConsoleTextAttribute (set_foreground_color_ dev c).2.1
        (set_foreground_color_ dev c).1).1)
      ((setConsoleTextAttribute (set_foreground_color_ dev' c).2.1
        (set_foreground_color_ dev' c).1).1)
      (by omega)]

/-- C5: applying a level color captures the device's attribute word and the
restore sets exactly that captured word — never a hardcoded default — so
`log` leaves the device state unchanged whenever the attribute query
succeeds; if the query fails, the white default is returned in place of the
captured state and the capture touches neither the device nor the trace;
and for every record the payload bytes `log` writes are identical whatever
the device state — in particular under a failing query — so output never
blocks on color introspection. -/
theorem log_restores_ambient (sink : Sink) (msg : LogMsg) (dev dev' : Device)
    (hw : dev.attribs < WORD_MOD) :
    (dev.queryOk = true →
      (set_foreground_color_ dev (sink.colors_ msg.level)).1 = dev.attribs ∧
      (setConsoleTextAttribute (set_foreground_color_ dev (sink.colors_ msg.level)).2.1
          (set_foreground_color_ dev (sink.colors_ msg.level)).1).1 = dev ∧
      (log sink msg dev).2.1 = dev) ∧
    (dev.queryOk = false →
      set_foreground_color_ dev (sink.colors_ msg.level) =
        (FOREGROUND_RED ||| FOREGROUND_GREEN ||| FOREGROUND_BLUE, dev, [])) ∧
    writtenBytes (log sink msg dev).2.2 = writtenBytes (log sink msg dev').2.2 := by
  refine ⟨?_, ?_, ?_⟩
  · obtain ⟨da, dq⟩ := dev
    have hw' : da < WORD_MOD := hw
    have hmod : da % WORD_MOD = da := Nat.mod_eq_of_lt hw'
    intro hq
    have hdq : dq = true := hq
    subst hdq
    refine ⟨?_, ?_, ?_⟩
    · rw [set_foreground_color_ok]
      exact hmod
    · rw [set_foreground_color_ok]
      simp [setConsoleTextAttribute, hmod]
    · by_cases hh : sink.out_handle_ = Handle.null ∨ sink.out_handle_ = Handle.invalid_handle
      · simp [log, hh]
      · simp only [log]
        rw [if_neg hh]
        split
        · rfl
        · split
          · split
            · exact color_range_loop_dev _ _ _ _ _ _ _ hw'
            · rw [set_foreground_color_ok]
              simp [setConsoleTextAttribute, hmod]
          · rfl
  · obtain ⟨da, dq⟩ := dev
    intro hq
    have hdq : dq = false := hq
    subst hdq
    exact set_foreground_color_fail da _
  · by_cases hh : sink.out_handle_ = Handle.null ∨ sink.out_handle_ = Handle.invalid_handle
    · simp [log, hh]
    · simp only [log]
      rw [if_neg hh, if_neg hh]
      by_cases hc : sink.in_console_ = false
      · rw [if_pos hc, if_pos hc]
      · rw [if_neg hc, if_neg hc]
        by_cases hsd : sink.should_do_colors_ = true ∧
          (apply_ranges (reset_ranges msg) (sink.formatter_ (reset_ranges msg)).2).num_start_ranges =
            (apply_ranges (reset_ranges msg) (sink.formatter_ (reset_ranges msg)).2).num_end_ranges
        · rw [if_pos hsd, if_pos hsd]
          by_cases hz :
            (apply_ranges (reset_ranges msg) (sink.formatter_ (reset_ranges msg)).2).num_start_ranges > 0
          · rw [if_pos hz, if_pos hz]
            simp only [writtenBytes_append]
            congr 1
            exact color_range_loop_bytes_indep _ _ _ _ _ _ 0 dev dev' rfl
          · rw [if_neg hz, if_neg hz]
            simp [writtenBytes_append, writtenBytes_set_foreground,
              writtenBytes_setConsoleTextAttribute]
        · rw [if_neg hsd, if_neg hsd]

theorem log_restores_ambient_witness :
    set_foreground_color_ devFail (sinkTwo.colors_ msgA.level) =
      (FOREGROUND_RED ||| FOREGROUND_GREEN ||| FOREGROUND_BLUE, devFail, []) ∧
    writtenBytes (log sinkTwo msgA devFail).2.2 =
      writtenBytes (log sinkTwo msgA devA).2.2 :=
  ⟨(log_restores_ambient sinkTwo msgA devFail devA (by decide)).2.1 rfl,
   (log_restores_ambient sinkTwo msgA devFail devA (by decide)).2.2⟩

lemma apply_ranges_level (msg : LogMsg) (r : RangeInfo) :
    (apply_ranges msg r).level = msg.level := rfl

lemma reset_ranges_level (msg : LogMsg) : (reset_ranges msg).level = msg.level := rfl

lemma apply_ranges_num_start (msg : LogMsg) (r : RangeInfo) :
    (apply_ranges msg r).num_start_ranges = r.num_start_ranges := rfl

lemma apply_ranges_num_end (msg : LogMsg) (r : RangeInfo) :
    (apply_ranges msg r).num_end_ranges = r.num_end_ranges := rfl

lemma apply_ranges_starts (msg : LogMsg) (r : RangeInfo) :
    (apply_ranges msg r).color_ranges_start = r.color_ranges_start := rfl

lemma apply_ranges_ends (msg : LogMsg) (r : RangeInfo) :
    (apply_ranges msg r).color_ranges_end = r.color_ranges_end := rfl

lemma attrTrace_flatMap (L : List Nat) (g : Nat → List Event) :
    attrTrace (L.flatMap g) = L.flatMap (fun j => attrTrace (g j)) := by
  induction L with
  | nil => simp [attrTrace]
  | cons x t ih => simp [List.flatMap_cons, attrTrace_append, ih]

/-- C6: with a valid console handle, colorization enabled, a succeeding
attribute query and zero ranges after formatting, `log` writes the entire
buffer as one colored span (one apply, the whole-buffer write, one restore
of the captured state) and the written payload equals the buffer; with
colorization disabled the same record degrades to plain passthrough. -/
theorem log_zero_ranges_colored (sink : Sink) (msg : LogMsg) (dev : Device)
    (hh : ¬(sink.out_handle_ = Handle.null ∨ sink.out_handle_ = Handle.invalid_handle))
    (hc : sink.in_console_ = true)
    (hq : dev.queryOk = true)
    (hw : dev.attribs < WORD_MOD)
    (h0 : (fmt_ranges sink msg).num_start_ranges = 0)
    (h0' : (fmt_ranges sink msg).num_end_ranges = 0) :
    (sink.should_do_colors_ = true →
      (log sink msg dev).2.2 =
        Event.setAttr (applyVal (sink.colors_ msg.level) dev.attribs) ::
          (print_range_ (fmt_buf sink msg) 0 (fmt_buf sink msg).length ++
            [Event.setAttr dev.attribs]) ∧
      writtenBytes (log sink msg dev).2.2 = fmt_buf sink msg ∧
      attrTrace (log sink msg dev).2.2 =
        [applyVal (sink.colors_ msg.level) dev.attribs, dev.attribs]) ∧
    (sink.should_do_colors_ = false →
      (log sink msg dev).2.2 = [Event.writeFile (fmt_buf sink msg)]) := by
  obtain ⟨da, dq⟩ := dev
  have hw' : da < WORD_MOD := hw
  have hdq : dq = true := hq
  subst hdq
  have hmod : da % WORD_MOD = da := Nat.mod_eq_of_lt hw'
  simp only [fmt_ranges] at h0 h0'
  constructor
  · intro hs
    have ht : (log sink msg ⟨da, true⟩).2.2 =
        Event.setAttr (applyVal (sink.colors_ msg.level) da) ::
          (print_range_ (fmt_buf sink msg) 0 (fmt_buf sink msg).length ++
            [Event.setAttr da]) := by
      simp [log, hh, hc, hs, apply_ranges_num_start, apply_ranges_num_end,
        apply_ranges_level, reset_ranges_level, h0, h0', fmt_buf,
        set_foreground_color_ok, setConsoleTextAttribute, hmod]
    refine ⟨ht, ?_, ?_⟩
    · rw [ht]
      simp [writtenBytes, writtenBytes_append, writtenBytes_print_range]
    · rw [ht]
      simp [attrTrace, attrTrace_append, attrTrace_print_range]
  · intro hs
    simp [log, hh, hc, hs, fmt_buf, write_to_file_]

theorem log_zero_ranges_colored_witness :
    writtenBytes (log sinkColor msgA devA).2.2 = fmt_buf sinkColor msgA :=
  ((log_zero_ranges_colored sinkColor msgA devA (by decide) rfl rfl (by decide)
    rfl rfl).1 rfl).2.1

/-- C1: with a valid console handle, colorization enabled, a succeeding
attribute query, equal range counts, at least one range, and well-ordered
in-bounds ranges, the trace of `log` is: the uncolored prefix before the
first range, then per range one color apply, the range's bytes, one restore
of the captured attributes, and the uncolored gap to the next range (the
buffer tail for the last range); the written bytes concatenate to the
formatted buffer byte-for-byte, and exactly one apply/restore pair occurs
per range, in range order. -/
theorem log_multi_range_colorize (sink : Sink) (msg : LogMsg) (dev : Device)
    (hh : ¬(sink.out_handle_ = Handle.null ∨ sink.out_handle_ = Handle.invalid_handle))
    (hc : sink.in_console_ = true)
    (hs : sink.should_do_colors_ = true)
    (hq : dev.queryOk = true)
    (hw : dev.attribs < WORD_MOD)
    (heq : (fmt_ranges sink msg).num_start_ranges = (fmt_ranges sink msg).num_end_ranges)
    (hn : 0 < (fmt_ranges sink msg).num_start_ranges)
    (hord1 : ∀ i, i < (fmt_ranges sink msg).num_start_ranges →
      (fmt_ranges sink msg).color_ranges_start.getD i 0 ≤
        (fmt_ranges sink msg).color_ranges_end.getD i 0)
    (hord2 : ∀ i, i < (fmt_ranges sink msg).num_start_ranges →
      i + 1 < (fmt_ranges sink msg).num_start_ranges →
      (fmt_ranges sink msg).color_ranges_end.getD i 0 ≤
        (fmt_ranges sink msg).color_ranges_start.getD (i + 1) 0)
    (hlast : (fmt_ranges sink msg).color_ranges_end.getD
        ((fmt_ranges sink msg).num_start_ranges - 1) 0 ≤ (fmt_buf sink msg).length) :
    (log sink msg dev).2.2 =
      print_range_ (fmt_buf sink msg) 0
          ((fmt_ranges sink msg).color_ranges_start.getD 0 0) ++
        (List.range (fmt_ranges sink msg).num_start_ranges).flatMap (fun j =>
          Event.setAttr (applyVal (sink.colors_ msg.level) dev.attribs) ::
            (print_range_ (fmt_buf sink msg)
                ((fmt_ranges sink msg).color_ranges_start.getD j 0)
                ((fmt_ranges sink msg).color_ranges_end.getD j 0) ++
             Event.setAttr dev.attribs ::
               (if j + 1 < (fmt_ranges sink msg).num_start_ranges then
                  print_range_ (fmt_buf sink msg)
                    ((fmt_ranges sink msg).color_ranges_end.getD j 0)
                    ((fmt_ranges sink msg).color_ranges_start.getD (j + 1) 0)
                else
                  print_range_ (fmt_buf sink msg)
                    ((fmt_ranges sink msg).color_ranges_end.getD j 0)
                    (fmt_buf sink msg).length))) ∧
    writtenBytes (log sink msg dev).2.2 = fmt_buf sink msg ∧
    attrTrace (log sink msg dev).2.2 =
      (List.range (fmt_ranges sink msg).num_start_ranges).flatMap
        (fun _ => [applyVal (sink.colors_ msg.level) dev.attribs, dev.attribs]) := by
  obtain ⟨da, dq⟩ := dev
  have hw' : da < WORD_MOD := hw
  have hdq : dq = true := hq
  subst hdq
  simp only [fmt_buf, fmt_ranges] at heq hn hord1 hord2 hlast ⊢
  have hloop := color_range_loop_ok da (sink.colors_ msg.level)
    ((sink.formatter_ (reset_ranges msg)).1)
    ((sink.formatter_ (reset_ranges msg)).2.num_start_ranges)
    ((sink.formatter_ (reset_ranges msg)).2.color_ranges_start)
    ((sink.formatter_ (reset_ranges msg)).2.color_ranges_end)
    hw' ((sink.formatter_ (reset_ranges msg)).2.num_start_ranges) 0 (Nat.sub_zero _)
  have ht : (log sink msg ⟨da, true⟩).2.2 =
      print_range_ ((sink.formatter_ (reset_ranges msg)).1) 0
          ((sink.formatter_ (reset_ranges msg)).2.color_ranges_start.getD 0 0) ++
        (List.range' 0 ((sink.formatter_ (reset_ranges msg)).2.num_start_ranges)).flatMap
          (fun j =>
            Event.setAttr (applyVal (sink.colors_ msg.level) da) ::
              (print_range_ ((sink.formatter_ (reset_ranges msg)).1)
                  ((sink.formatter_ (reset_ranges msg)).2.color_ranges_start.getD j 0)
                  ((sink.formatter_ (reset_ranges msg)).2.color_ranges_end.getD j 0) ++
               Event.setAttr da ::
                 (if j + 1 < (sink.formatter_ (reset_ranges msg)).2.num_start_ranges then
                    print_range_ ((sink.formatter_ (reset_ranges msg)).1)
                      ((sink.formatter_ (reset_ranges msg)).2.color_ranges_end.getD j 0)
                      ((sink.formatter_ (reset_ranges msg)).2.color_ranges_start.getD (j + 1) 0)
                  else
                    print_range_ ((sink.formatter_ (reset_ranges msg)).1)
                      ((sink.formatter_ (reset_ranges msg)).2.color_ranges_end.getD j 0)
                      ((sink.formatter_ (reset_ranges msg)).1).length))) := by
    simp [log, hh, hc, hs, apply_ranges_num_start, apply_ranges_num_end,
      apply_ranges_level, apply_ranges_starts, apply_ranges_ends, reset_ranges_level,
      heq.symm, hn, hloop, -List.getD_eq_getElem?_getD]
  have hesb := es_bound ((sink.formatter_ (reset_ranges msg)).1).length
    ((sink.formatter_ (reset_ranges msg)).2.color_ranges_start)
    ((sink.formatter_ (reset_ranges msg)).2.color_ranges_end)
    ((sink.formatter_ (reset_ranges msg)).2.num_start_ranges)
    hord1 hord2 hlast
  have hs0len : (sink.formatter_ (reset_ranges msg)).2.color_ranges_start.getD 0 0 ≤
      ((sink.formatter_ (reset_ranges msg)).1).length :=
    le_trans (hord1 0 hn) (hesb _ 0 rfl hn)
  refine ⟨?_, ?_, ?_⟩
  · rw [List.range_eq_range']
    exact ht
  · rw [ht, writtenBytes_append, writtenBytes_print_range]
    rw [walk_bytes ((sink.formatter_ (reset_ranges msg)).1)
      ((sink.formatter_ (reset_ranges msg)).2.color_ranges_start)
      ((sink.formatter_ (reset_ranges msg)).2.color_ranges_end)
      ((sink.formatter_ (reset_ranges msg)).2.num_start_ranges)
      (applyVal (sink.colors_ msg.level) da) da
      hord1 hord2 hlast _ 0 (Nat.sub_zero _) hn]
    rw [slice_append ((sink.formatter_ (reset_ranges msg)).1) 0
      ((sink.formatter_ (reset_ranges msg)).2.color_ranges_start.getD 0 0)
      ((sink.formatter_ (reset_ranges msg)).1).length (Nat.zero_le _) hs0len]
    simp
  · rw [ht, attrTrace_append, attrTrace_print_range, attrTrace_flatMap,
      List.range_eq_range']
    have hgap : ∀ j,
        attrTrace (if j + 1 < (sink.formatter_ (reset_ranges msg)).2.num_start_ranges then
          print_range_ ((sink.formatter_ (reset_ranges msg)).1)
            ((sink.formatter_ (reset_ranges msg)).2.color_ranges_end.getD j 0)
            ((sink.formatter_ (reset_ranges msg)).2.color_ranges_start.getD (j + 1) 0)
        else
          print_range_ ((sink.formatter_ (reset_ranges msg)).1)
            ((sink.formatter_ (reset_ranges msg)).2.color_ranges_end.getD j 0)
            ((sink.formatter_ (reset_ranges msg)).1).length) = [] := by
      intro j
      split <;> exact attrTrace_print_range _ _ _
    simp [attrTrace, attrTrace_append, attrTrace_print_range, hgap,
      -List.getD_eq_getElem?_getD]

theorem log_multi_range_colorize_witness :
    writtenBytes (log sinkTwo msgA devA).2.2 = fmt_buf sinkTwo msgA :=
  (log_multi_range_colorize sinkTwo msgA devA (by decide) rfl rfl rfl (by decide)
    rfl (by decide) (by decide) (by decide) (by decide)).2.1

end Spdlog
